import Mathlib

/-!
# The AST node model of `src/parser.hpp`

A shallow embedding of the declarations of `parser.hpp`: the enumerations, the
payload structs, the `AstNode` struct with its discriminant `type` and its union
`data`, and the two functions the header declares (`node_type_str`, `ast_print`).

Conventions of the embedding:

* `Buf` is a sequence of characters, `int` is `Int`, `bool` is `Bool`;
* a pointer `AstNode *` is an `Option`: `none` is the null pointer;
* a `ZigList<T>` is a `List T`, so a `ZigList<AstNode *>` is a list of nullable
  pointers and a `ZigList<AstNode *> *` is a nullable pointer to such a list;
* pointers to the forward-declared structs `CodeGenNode` and `ImportTableEntry`
  are nullable handles (`Option Nat`);
* the union `data` is untagged: a node is read through the member that belongs
  to its discriminant `type`, so the discriminant and the union are embedded
  together, one alternative per node kind that carries the member of that kind;
* the payload structs are parametrised by the node type `N` they point to, and
  `AstNode` ties the knot; trees are finite and acyclic by construction.
-/

namespace ZigParser

/-! ## Enumerations -/

/-- The enum `NodeType` (parser.hpp, lines 21-50). -/
inductive NodeType where
  | NodeTypeRoot
  | NodeTypeRootExportDecl
  | NodeTypeFnProto
  | NodeTypeFnDef
  | NodeTypeFnDecl
  | NodeTypeParamDecl
  | NodeTypeType
  | NodeTypeBlock
  | NodeTypeExternBlock
  | NodeTypeDirective
  | NodeTypeReturnExpr
  | NodeTypeVariableDeclaration
  | NodeTypeBinOpExpr
  | NodeTypeCastExpr
  | NodeTypeNumberLiteral
  | NodeTypeStringLiteral
  | NodeTypeUnreachable
  | NodeTypeSymbol
  | NodeTypePrefixOpExpr
  | NodeTypeFnCallExpr
  | NodeTypeArrayAccessExpr
  | NodeTypeUse
  | NodeTypeVoid
  | NodeTypeBoolLiteral
  | NodeTypeIfExpr
  | NodeTypeLabel
  | NodeTypeGoto
  | NodeTypeAsmExpr
  deriving DecidableEq, Fintype

/-- The enum `FnProtoVisibMod` (lines 56-60). -/
inductive FnProtoVisibMod where
  | FnProtoVisibModPrivate
  | FnProtoVisibModPub
  | FnProtoVisibModExport
  deriving DecidableEq, Fintype

/-- The enum `AstNodeTypeType` (lines 85-89). -/
inductive AstNodeTypeType where
  | AstNodeTypeTypePrimitive
  | AstNodeTypeTypePointer
  | AstNodeTypeTypeArray
  deriving DecidableEq, Fintype

/-- The enum `BinOpType` (lines 116-137). -/
inductive BinOpType where
  | BinOpTypeInvalid
  | BinOpTypeAssign
  | BinOpTypeBoolOr
  | BinOpTypeBoolAnd
  | BinOpTypeCmpEq
  | BinOpTypeCmpNotEq
  | BinOpTypeCmpLessThan
  | BinOpTypeCmpGreaterThan
  | BinOpTypeCmpLessOrEq
  | BinOpTypeCmpGreaterOrEq
  | BinOpTypeBinOr
  | BinOpTypeBinXor
  | BinOpTypeBinAnd
  | BinOpTypeBitShiftLeft
  | BinOpTypeBitShiftRight
  | BinOpTypeAdd
  | BinOpTypeSub
  | BinOpTypeMult
  | BinOpTypeDiv
  | BinOpTypeMod
  deriving DecidableEq, Fintype

/-- The enum `PrefixOp` (lines 176-181). -/
inductive PrefixOp where
  | PrefixOpInvalid
  | PrefixOpBoolNot
  | PrefixOpBinNot
  | PrefixOpNegation
  deriving DecidableEq, Fintype

/-- The enum `AsmTokenId` (lines 270-274). -/
inductive AsmTokenId where
  | AsmTokenIdTemplate
  | AsmTokenIdPercent
  | AsmTokenIdVar
  deriving DecidableEq, Fintype

/-! ## Buffers and payload structs -/

/-- A `Buf` (buffer.hpp): an owned sequence of characters. -/
abbrev Buf := List Char

/-- The struct `AstNodeRoot` (lines 52-54). -/
structure AstNodeRoot (N : Type) where
  top_level_decls : List (Option N)

/-- The struct `AstNodeFnProto` (lines 62-69). -/
structure AstNodeFnProto (N : Type) where
  directives : Option (List (Option N))
  visib_mod : FnProtoVisibMod
  name : Buf
  params : List (Option N)
  return_type : Option N
  is_var_args : Bool

/-- The struct `AstNodeFnDef` (lines 71-74). -/
structure AstNodeFnDef (N : Type) where
  fn_proto : Option N
  body : Option N

/-- The struct `AstNodeFnDecl` (lines 76-78). -/
structure AstNodeFnDecl (N : Type) where
  fn_proto : Option N

/-- The struct `AstNodeParamDecl` (lines 80-83). -/
structure AstNodeParamDecl (N : Type) where
  name : Buf
  type : Option N

/-- The struct `AstNodeType` (lines 91-97). -/
structure AstNodeType (N : Type) where
  type : AstNodeTypeType
  primitive_name : Buf
  child_type : Option N
  array_size : Option N
  is_const : Bool

/-- The struct `AstNodeBlock` (lines 99-101). -/
structure AstNodeBlock (N : Type) where
  statements : List (Option N)

/-- The struct `AstNodeReturnExpr` (lines 103-106); `expr` might be null in case
of `return void`. -/
structure AstNodeReturnExpr (N : Type) where
  expr : Option N

/-- The struct `AstNodeVariableDeclaration` (lines 108-114). The source comments
the two pointers with "one or both of type and expr will be non null". -/
structure AstNodeVariableDeclaration (N : Type) where
  symbol : Buf
  is_const : Bool
  type : Option N
  expr : Option N

/-- The struct `AstNodeBinOpExpr` (lines 139-143). -/
structure AstNodeBinOpExpr (N : Type) where
  op1 : Option N
  bin_op : BinOpType
  op2 : Option N

/-- The struct `AstNodeFnCallExpr` (lines 145-148). -/
structure AstNodeFnCallExpr (N : Type) where
  fn_ref_expr : Option N
  params : List (Option N)

/-- The struct `AstNodeArrayAccessExpr` (lines 150-153). -/
structure AstNodeArrayAccessExpr (N : Type) where
  array_ref_expr : Option N
  subscript : Option N

/-- The struct `AstNodeExternBlock` (lines 155-158). -/
structure AstNodeExternBlock (N : Type) where
  directives : Option (List (Option N))
  fn_decls : List (Option N)

/-- The struct `AstNodeDirective` (lines 160-163). -/
structure AstNodeDirective where
  name : Buf
  param : Buf

/-- The struct `AstNodeRootExportDecl` (lines 165-169). -/
structure AstNodeRootExportDecl (N : Type) where
  type : Buf
  name : Buf
  directives : Option (List (Option N))

/-- The struct `AstNodeCastExpr` (lines 171-174). -/
structure AstNodeCastExpr (N : Type) where
  expr : Option N
  type : Option N

/-- The struct `AstNodePrefixOpExpr` (lines 183-186). -/
structure AstNodePrefixOpExpr (N : Type) where
  prefix_op : PrefixOp
  primary_expr : Option N

/-- The struct `AstNodeUse` (lines 188-191). -/
structure AstNodeUse (N : Type) where
  path : Buf
  directives : Option (List (Option N))

/-- The struct `AstNodeIfExpr` (lines 193-197). The source comments `else_node`
with "null, block node, or other if expr node". -/
structure AstNodeIfExpr (N : Type) where
  condition : Option N
  then_block : Option N
  else_node : Option N

/-- The struct `AstNodeLabel` (lines 199-201). -/
structure AstNodeLabel where
  name : Buf

/-- The struct `AstNodeGoto` (lines 203-205). -/
structure AstNodeGoto where
  name : Buf

/-- The struct `AsmOutput` (lines 207-211). -/
structure AsmOutput where
  asm_symbolic_name : Buf
  constraint : Buf
  variable_name : Buf

/-- The struct `AsmInput` (lines 213-217). -/
structure AsmInput (N : Type) where
  asm_symbolic_name : Buf
  constraint : Buf
  expr : Option N

/-- The struct `SrcPos` (lines 219-222). -/
structure SrcPos where
  line : Int
  column : Int

/-- The struct `AsmToken` (lines 276-280). The field `end` of the source is
written `end_` (`end` is reserved). -/
structure AsmToken where
  id : AsmTokenId
  start : Int
  end_ : Int

/-- The struct `AstNodeAsmExpr` (lines 224-232). -/
structure AstNodeAsmExpr (N : Type) where
  is_volatile : Bool
  asm_template : Buf
  offset_map : List SrcPos
  token_list : List AsmToken
  output_list : List (Option AsmOutput)
  input_list : List (Option (AsmInput N))
  clobber_list : List (Option Buf)

/-! ## The members of the union -/

/-- The names of the members of the union `data`, in the order of the source. -/
inductive AstNodeDataMember where
  | root
  | root_export_decl
  | fn_def
  | fn_decl
  | fn_proto
  | type
  | param_decl
  | block
  | return_expr
  | variable_declaration
  | bin_op_expr
  | extern_block
  | directive
  | cast_expr
  | prefix_op_expr
  | fn_call_expr
  | array_access_expr
  | use
  | if_expr
  | label
  | go_to
  | asm_expr
  | number
  | string
  | symbol
  | bool_literal
  deriving DecidableEq, Fintype

/-- The member of the union `data` that belongs to a node kind. The source names
every member after its kind (`NodeTypeFnDef` and `fn_def`, `NodeTypeNumberLiteral`
and `number`, `NodeTypeGoto` and `go_to`, ...); the kinds `NodeTypeUnreachable`
and `NodeTypeVoid` have no member. -/
def payloadMember : NodeType → Option AstNodeDataMember
  | .NodeTypeRoot => some .root
  | .NodeTypeRootExportDecl => some .root_export_decl
  | .NodeTypeFnProto => some .fn_proto
  | .NodeTypeFnDef => some .fn_def
  | .NodeTypeFnDecl => some .fn_decl
  | .NodeTypeParamDecl => some .param_decl
  | .NodeTypeType => some .type
  | .NodeTypeBlock => some .block
  | .NodeTypeExternBlock => some .extern_block
  | .NodeTypeDirective => some .directive
  | .NodeTypeReturnExpr => some .return_expr
  | .NodeTypeVariableDeclaration => some .variable_declaration
  | .NodeTypeBinOpExpr => some .bin_op_expr
  | .NodeTypeCastExpr => some .cast_expr
  | .NodeTypeNumberLiteral => some .number
  | .NodeTypeStringLiteral => some .string
  | .NodeTypeUnreachable => none
  | .NodeTypeSymbol => some .symbol
  | .NodeTypePrefixOpExpr => some .prefix_op_expr
  | .NodeTypeFnCallExpr => some .fn_call_expr
  | .NodeTypeArrayAccessExpr => some .array_access_expr
  | .NodeTypeUse => some .use
  | .NodeTypeVoid => none
  | .NodeTypeBoolLiteral => some .bool_literal
  | .NodeTypeIfExpr => some .if_expr
  | .NodeTypeLabel => some .label
  | .NodeTypeGoto => some .go_to
  | .NodeTypeAsmExpr => some .asm_expr

/-- The node kind that a member of the union `data` belongs to. -/
def memberKind : AstNodeDataMember → NodeType
  | .root => .NodeTypeRoot
  | .root_export_decl => .NodeTypeRootExportDecl
  | .fn_def => .NodeTypeFnDef
  | .fn_decl => .NodeTypeFnDecl
  | .fn_proto => .NodeTypeFnProto
  | .type => .NodeTypeType
  | .param_decl => .NodeTypeParamDecl
  | .block => .NodeTypeBlock
  | .return_expr => .NodeTypeReturnExpr
  | .variable_declaration => .NodeTypeVariableDeclaration
  | .bin_op_expr => .NodeTypeBinOpExpr
  | .extern_block => .NodeTypeExternBlock
  | .directive => .NodeTypeDirective
  | .cast_expr => .NodeTypeCastExpr
  | .prefix_op_expr => .NodeTypePrefixOpExpr
  | .fn_call_expr => .NodeTypeFnCallExpr
  | .array_access_expr => .NodeTypeArrayAccessExpr
  | .use => .NodeTypeUse
  | .if_expr => .NodeTypeIfExpr
  | .label => .NodeTypeLabel
  | .go_to => .NodeTypeGoto
  | .asm_expr => .NodeTypeAsmExpr
  | .number => .NodeTypeNumberLiteral
  | .string => .NodeTypeStringLiteral
  | .symbol => .NodeTypeSymbol
  | .bool_literal => .NodeTypeBoolLiteral

/-! ## The node -/

/-- The discriminant `type` of `AstNode` together with its union `data`
(lines 235 and 240-267). The union is untagged and a node is read through the
member that belongs to its kind, so there is one alternative per enumerator of
`NodeType`, in the order of the enum, and it carries the member of the union of
that kind under the name the source gives the member. `NodeTypeUnreachable` and
`NodeTypeVoid` have no member in the union and carry nothing. -/
inductive AstNodeData (N : Type) where
  | NodeTypeRoot (root : AstNodeRoot N)
  | NodeTypeRootExportDecl (root_export_decl : AstNodeRootExportDecl N)
  | NodeTypeFnProto (fn_proto : AstNodeFnProto N)
  | NodeTypeFnDef (fn_def : AstNodeFnDef N)
  | NodeTypeFnDecl (fn_decl : AstNodeFnDecl N)
  | NodeTypeParamDecl (param_decl : AstNodeParamDecl N)
  | NodeTypeType (type : AstNodeType N)
  | NodeTypeBlock (block : AstNodeBlock N)
  | NodeTypeExternBlock (extern_block : AstNodeExternBlock N)
  | NodeTypeDirective (directive : AstNodeDirective)
  | NodeTypeReturnExpr (return_expr : AstNodeReturnExpr N)
  | NodeTypeVariableDeclaration (variable_declaration : AstNodeVariableDeclaration N)
  | NodeTypeBinOpExpr (bin_op_expr : AstNodeBinOpExpr N)
  | NodeTypeCastExpr (cast_expr : AstNodeCastExpr N)
  | NodeTypeNumberLiteral (number : Buf)
  | NodeTypeStringLiteral (string : Buf)
  | NodeTypeUnreachable
  | NodeTypeSymbol (symbol : Buf)
  | NodeTypePrefixOpExpr (prefix_op_expr : AstNodePrefixOpExpr N)
  | NodeTypeFnCallExpr (fn_call_expr : AstNodeFnCallExpr N)
  | NodeTypeArrayAccessExpr (array_access_expr : AstNodeArrayAccessExpr N)
  | NodeTypeUse (use : AstNodeUse N)
  | NodeTypeVoid
  | NodeTypeBoolLiteral (bool_literal : Bool)
  | NodeTypeIfExpr (if_expr : AstNodeIfExpr N)
  | NodeTypeLabel (label : AstNodeLabel)
  | NodeTypeGoto (go_to : AstNodeGoto)
  | NodeTypeAsmExpr (asm_expr : AstNodeAsmExpr N)

/-- The struct `AstNode` (lines 234-268): the source position, the two foreign
pointers, and the discriminant with the union. -/
inductive AstNode where
  | mk (line : Int) (column : Int) (codegen_node : Option Nat) (owner : Option Nat)
      (data : AstNodeData AstNode)

/-- The discriminant of an alternative. -/
def AstNodeData.type {N : Type} : AstNodeData N → NodeType
  | .NodeTypeRoot _ => .NodeTypeRoot
  | .NodeTypeRootExportDecl _ => .NodeTypeRootExportDecl
  | .NodeTypeFnProto _ => .NodeTypeFnProto
  | .NodeTypeFnDef _ => .NodeTypeFnDef
  | .NodeTypeFnDecl _ => .NodeTypeFnDecl
  | .NodeTypeParamDecl _ => .NodeTypeParamDecl
  | .NodeTypeType _ => .NodeTypeType
  | .NodeTypeBlock _ => .NodeTypeBlock
  | .NodeTypeExternBlock _ => .NodeTypeExternBlock
  | .NodeTypeDirective _ => .NodeTypeDirective
  | .NodeTypeReturnExpr _ => .NodeTypeReturnExpr
  | .NodeTypeVariableDeclaration _ => .NodeTypeVariableDeclaration
  | .NodeTypeBinOpExpr _ => .NodeTypeBinOpExpr
  | .NodeTypeCastExpr _ => .NodeTypeCastExpr
  | .NodeTypeNumberLiteral _ => .NodeTypeNumberLiteral
  | .NodeTypeStringLiteral _ => .NodeTypeStringLiteral
  | .NodeTypeUnreachable => .NodeTypeUnreachable
  | .NodeTypeSymbol _ => .NodeTypeSymbol
  | .NodeTypePrefixOpExpr _ => .NodeTypePrefixOpExpr
  | .NodeTypeFnCallExpr _ => .NodeTypeFnCallExpr
  | .NodeTypeArrayAccessExpr _ => .NodeTypeArrayAccessExpr
  | .NodeTypeUse _ => .NodeTypeUse
  | .NodeTypeVoid => .NodeTypeVoid
  | .NodeTypeBoolLiteral _ => .NodeTypeBoolLiteral
  | .NodeTypeIfExpr _ => .NodeTypeIfExpr
  | .NodeTypeLabel _ => .NodeTypeLabel
  | .NodeTypeGoto _ => .NodeTypeGoto
  | .NodeTypeAsmExpr _ => .NodeTypeAsmExpr

/-- The field `line` of a node. -/
def AstNode.line : AstNode → Int
  | .mk l _ _ _ _ => l

/-- The field `column` of a node. -/
def AstNode.column : AstNode → Int
  | .mk _ c _ _ _ => c

/-- The field `codegen_node` of a node. -/
def AstNode.codegen_node : AstNode → Option Nat
  | .mk _ _ g _ _ => g

/-- The field `owner` of a node. -/
def AstNode.owner : AstNode → Option Nat
  | .mk _ _ _ o _ => o

/-- The discriminant and the union of a node. -/
def AstNode.data : AstNode → AstNodeData AstNode
  | .mk _ _ _ _ d => d

/-- The field `type` of a node. -/
def AstNode.type (n : AstNode) : NodeType := n.data.type

/-- Modelled from the spec: the body of `node_type_str`, which parser.hpp only
declares (line 289). The spec asks for a stable, non-empty name for every node
kind, no two kinds sharing a name; the name of a kind is its enumerator without
the `NodeType` prefix. -/
def node_type_str : NodeType → String
  | .NodeTypeRoot => "Root"
  | .NodeTypeRootExportDecl => "RootExportDecl"
  | .NodeTypeFnProto => "FnProto"
  | .NodeTypeFnDef => "FnDef"
  | .NodeTypeFnDecl => "FnDecl"
  | .NodeTypeParamDecl => "ParamDecl"
  | .NodeTypeType => "Type"
  | .NodeTypeBlock => "Block"
  | .NodeTypeExternBlock => "ExternBlock"
  | .NodeTypeDirective => "Directive"
  | .NodeTypeReturnExpr => "ReturnExpr"
  | .NodeTypeVariableDeclaration => "VariableDeclaration"
  | .NodeTypeBinOpExpr => "BinOpExpr"
  | .NodeTypeCastExpr => "CastExpr"
  | .NodeTypeNumberLiteral => "NumberLiteral"
  | .NodeTypeStringLiteral => "StringLiteral"
  | .NodeTypeUnreachable => "Unreachable"
  | .NodeTypeSymbol => "Symbol"
  | .NodeTypePrefixOpExpr => "PrefixOpExpr"
  | .NodeTypeFnCallExpr => "FnCallExpr"
  | .NodeTypeArrayAccessExpr => "ArrayAccessExpr"
  | .NodeTypeUse => "Use"
  | .NodeTypeVoid => "Void"
  | .NodeTypeBoolLiteral => "BoolLiteral"
  | .NodeTypeIfExpr => "IfExpr"
  | .NodeTypeLabel => "Label"
  | .NodeTypeGoto => "Goto"
  | .NodeTypeAsmExpr => "AsmExpr"

/-! ## Children -/

/-- The node behind a nullable pointer: nothing for the null pointer. -/
def ptr {N : Type} (p : Option N) : List N :=
  match p with
  | none => []
  | some n => [n]

/-- The nodes behind a list of nullable pointers, in the order of the list. -/
def ptrs {N : Type} : List (Option N) → List N
  | [] => []
  | p :: l => ptr p ++ ptrs l

/-- The nodes behind a nullable pointer to a list of nullable pointers. -/
def optPtrs {N : Type} (p : Option (List (Option N))) : List N :=
  match p with
  | none => []
  | some l => ptrs l

/-- The bound expressions of a list of pointers to `AsmInput`, in order. -/
def inputExprs {N : Type} : List (Option (AsmInput N)) → List N
  | [] => []
  | none :: l => inputExprs l
  | some i :: l => ptr i.expr ++ inputExprs l

/-- The child references held by a node of each kind, read from the member of
the union of that kind, in the order of the fields of its struct. -/
def AstNodeData.children {N : Type} : AstNodeData N → List N
  | .NodeTypeRoot v => ptrs v.top_level_decls
  | .NodeTypeRootExportDecl v => optPtrs v.directives
  | .NodeTypeFnProto v => optPtrs v.directives ++ ptrs v.params ++ ptr v.return_type
  | .NodeTypeFnDef v => ptr v.fn_proto ++ ptr v.body
  | .NodeTypeFnDecl v => ptr v.fn_proto
  | .NodeTypeParamDecl v => ptr v.type
  | .NodeTypeType v => ptr v.child_type ++ ptr v.array_size
  | .NodeTypeBlock v => ptrs v.statements
  | .NodeTypeExternBlock v => optPtrs v.directives ++ ptrs v.fn_decls
  | .NodeTypeDirective _ => []
  | .NodeTypeReturnExpr v => ptr v.expr
  | .NodeTypeVariableDeclaration v => ptr v.type ++ ptr v.expr
  | .NodeTypeBinOpExpr v => ptr v.op1 ++ ptr v.op2
  | .NodeTypeCastExpr v => ptr v.expr ++ ptr v.type
  | .NodeTypeNumberLiteral _ => []
  | .NodeTypeStringLiteral _ => []
  | .NodeTypeUnreachable => []
  | .NodeTypeSymbol _ => []
  | .NodeTypePrefixOpExpr v => ptr v.primary_expr
  | .NodeTypeFnCallExpr v => ptr v.fn_ref_expr ++ ptrs v.params
  | .NodeTypeArrayAccessExpr v => ptr v.array_ref_expr ++ ptr v.subscript
  | .NodeTypeUse v => optPtrs v.directives
  | .NodeTypeVoid => []
  | .NodeTypeBoolLiteral _ => []
  | .NodeTypeIfExpr v => ptr v.condition ++ ptr v.then_block ++ ptr v.else_node
  | .NodeTypeLabel _ => []
  | .NodeTypeGoto _ => []
  | .NodeTypeAsmExpr v => inputExprs v.input_list

/-- The children of a node, in the order of its payload. -/
def AstNode.children (n : AstNode) : List AstNode := n.data.children

/-- The child references of the source structs, stated field by field: `c` is
behind a non-null `AstNode *` that a node of this kind holds, be it a pointer
field of its struct, an entry of one of its `ZigList<AstNode *>`, or the `expr`
of an entry of the `input_list` of an AsmExpr. -/
def AstNodeData.Refers {N : Type} : AstNodeData N → N → Prop
  | .NodeTypeRoot v, c => some c ∈ v.top_level_decls
  | .NodeTypeRootExportDecl v, c => ∃ l, v.directives = some l ∧ some c ∈ l
  | .NodeTypeFnProto v, c =>
      (∃ l, v.directives = some l ∧ some c ∈ l) ∨ some c ∈ v.params ∨ v.return_type = some c
  | .NodeTypeFnDef v, c => v.fn_proto = some c ∨ v.body = some c
  | .NodeTypeFnDecl v, c => v.fn_proto = some c
  | .NodeTypeParamDecl v, c => v.type = some c
  | .NodeTypeType v, c => v.child_type = some c ∨ v.array_size = some c
  | .NodeTypeBlock v, c => some c ∈ v.statements
  | .NodeTypeExternBlock v, c =>
      (∃ l, v.directives = some l ∧ some c ∈ l) ∨ some c ∈ v.fn_decls
  | .NodeTypeDirective _, _ => False
  | .NodeTypeReturnExpr v, c => v.expr = some c
  | .NodeTypeVariableDeclaration v, c => v.type = some c ∨ v.expr = some c
  | .NodeTypeBinOpExpr v, c => v.op1 = some c ∨ v.op2 = some c
  | .NodeTypeCastExpr v, c => v.expr = some c ∨ v.type = some c
  | .NodeTypeNumberLiteral _, _ => False
  | .NodeTypeStringLiteral _, _ => False
  | .NodeTypeUnreachable, _ => False
  | .NodeTypeSymbol _, _ => False
  | .NodeTypePrefixOpExpr v, c => v.primary_expr = some c
  | .NodeTypeFnCallExpr v, c => v.fn_ref_expr = some c ∨ some c ∈ v.params
  | .NodeTypeArrayAccessExpr v, c => v.array_ref_expr = some c ∨ v.subscript = some c
  | .NodeTypeUse v, c => ∃ l, v.directives = some l ∧ some c ∈ l
  | .NodeTypeVoid, _ => False
  | .NodeTypeBoolLiteral _, _ => False
  | .NodeTypeIfExpr v, c => v.condition = some c ∨ v.then_block = some c ∨ v.else_node = some c
  | .NodeTypeLabel _, _ => False
  | .NodeTypeGoto _, _ => False
  | .NodeTypeAsmExpr v, c => ∃ i, some i ∈ v.input_list ∧ i.expr = some c

/-- The node `c` is a child reference of the node `n`. -/
def AstNode.IsChild (n c : AstNode) : Prop := n.data.Refers c

/-- The node `m` lies `d` levels below the node `n`: `n` itself at depth 0, and a
node `d` levels below a child reference of `n` at depth `d + 1`. -/
inductive AstNode.Descends : AstNode → AstNode → Nat → Prop where
  | self (n : AstNode) : AstNode.Descends n n 0
  | child {n c m : AstNode} {d : Nat} (hc : n.IsChild c) (hm : AstNode.Descends c m d) :
      AstNode.Descends n m (d + 1)

/-- The member `if_expr` of a node of kind IfExpr. -/
def AstNode.if_expr (n : AstNode) : Option (AstNodeIfExpr AstNode) :=
  match n.data with
  | .NodeTypeIfExpr v => some v
  | _ => none

/-- One step of following `else_node`: `n` is an IfExpr whose `else_node` is the
non-null pointer to `e`. -/
def AstNode.ElseStep (n e : AstNode) : Prop :=
  ∃ v, n.if_expr = some v ∧ v.else_node = some e

/-- Following `else_node` from `n` any number of times reaches `m`. -/
def AstNode.ElseReach (n m : AstNode) : Prop :=
  Relation.ReflTransGen AstNode.ElseStep n m

/-- The levels of two consecutive lines: the next line is at most one level
deeper than the line before it. -/
def atMostOneDeeper (a b : Int × String) : Prop := b.1 ≤ a.1 + 1

/-! ## Children are smaller than their parent -/

theorem sizeOf_lt_of_mem_ptr {N : Type} [SizeOf N] {p : Option N} {c : N}
    (h : c ∈ ptr p) : sizeOf c < sizeOf p := by
  cases p with
  | none => simp [ptr] at h
  | some n =>
    simp only [ptr, List.mem_singleton] at h
    subst h
    simp

theorem sizeOf_lt_of_mem_ptrs {N : Type} [SizeOf N] {l : List (Option N)} {c : N}
    (h : c ∈ ptrs l) : sizeOf c < sizeOf l := by
  induction l with
  | nil => simp [ptrs] at h
  | cons p l ih =>
    simp only [ptrs, List.mem_append] at h
    rcases h with h | h
    · have := sizeOf_lt_of_mem_ptr h
      simp
      omega
    · have := ih h
      simp
      omega

theorem sizeOf_lt_of_mem_optPtrs {N : Type} [SizeOf N] {p : Option (List (Option N))}
    {c : N} (h : c ∈ optPtrs p) : sizeOf c < sizeOf p := by
  cases p with
  | none => simp [optPtrs] at h
  | some l =>
    have := sizeOf_lt_of_mem_ptrs (show c ∈ ptrs l from h)
    simp
    omega

theorem sizeOf_lt_of_mem_inputExprs {N : Type} [SizeOf N]
    {l : List (Option (AsmInput N))} {c : N} (h : c ∈ inputExprs l) :
    sizeOf c < sizeOf l := by
  induction l with
  | nil => simp [inputExprs] at h
  | cons p l ih =>
    cases p with
    | none =>
      have := ih (show c ∈ inputExprs l from h)
      simp
      omega
    | some i =>
      simp only [inputExprs, List.mem_append] at h
      rcases h with h | h
      · have := sizeOf_lt_of_mem_ptr h
        cases i
        simp at this ⊢
        omega
      · have := ih h
        simp
        omega

theorem AstNodeData.sizeOf_child_lt {N : Type} [SizeOf N]
    {d : AstNodeData N} {c : N} (h : c ∈ d.children) : sizeOf c < sizeOf d := by
  cases d with
  | NodeTypeRoot v =>
    cases v
    have := sizeOf_lt_of_mem_ptrs h
    dsimp only at this
    simp
    omega
  | NodeTypeRootExportDecl v =>
    cases v
    have := sizeOf_lt_of_mem_optPtrs h
    dsimp only at this
    simp
    omega
  | NodeTypeFnProto v =>
    cases v
    rcases List.mem_append.1 h with h | h
    · rcases List.mem_append.1 h with h | h
      · have := sizeOf_lt_of_mem_optPtrs h
        dsimp only at this
        simp
        omega
      · have := sizeOf_lt_of_mem_ptrs h
        dsimp only at this
        simp
        omega
    · have := sizeOf_lt_of_mem_ptr h
      dsimp only at this
      simp
      omega
  | NodeTypeFnDef v =>
    cases v
    rcases List.mem_append.1 h with h | h
    · have := sizeOf_lt_of_mem_ptr h
      dsimp only at this
      simp
      omega
    · have := sizeOf_lt_of_mem_ptr h
      dsimp only at this
      simp
      omega
  | NodeTypeFnDecl v =>
    cases v
    have := sizeOf_lt_of_mem_ptr h
    dsimp only at this
    simp
    omega
  | NodeTypeParamDecl v =>
    cases v
    have := sizeOf_lt_of_mem_ptr h
    dsimp only at this
    simp
    omega
  | NodeTypeType v =>
    cases v
    rcases List.mem_append.1 h with h | h
    · have := sizeOf_lt_of_mem_ptr h
      dsimp only at this
      simp
      omega
    · have := sizeOf_lt_of_mem_ptr h
      dsimp only at this
      simp
      omega
  | NodeTypeBlock v =>
    cases v
    have := sizeOf_lt_of_mem_ptrs h
    dsimp only at this
    simp
    omega
  | NodeTypeExternBlock v =>
    cases v
    rcases List.mem_append.1 h with h | h
    · have := sizeOf_lt_of_mem_optPtrs h
      dsimp only at this
      simp
      omega
    · have := sizeOf_lt_of_mem_ptrs h
      dsimp only at this
      simp
      omega
  | NodeTypeDirective v => simp [AstNodeData.children] at h
  | NodeTypeReturnExpr v =>
    cases v
    have := sizeOf_lt_of_mem_ptr h
    dsimp only at this
    simp
    omega
  | NodeTypeVariableDeclaration v =>
    cases v
    rcases List.mem_append.1 h with h | h
    · have := sizeOf_lt_of_mem_ptr h
      dsimp only at this
      simp
      omega
    · have := sizeOf_lt_of_mem_ptr h
      dsimp only at this
      simp
      omega
  | NodeTypeBinOpExpr v =>
    cases v
    rcases List.mem_append.1 h with h | h
    · have := sizeOf_lt_of_mem_ptr h
      dsimp only at this
      simp
      omega
    · have := sizeOf_lt_of_mem_ptr h
      dsimp only at this
      simp
      omega
  | NodeTypeCastExpr v =>
    cases v
    rcases List.mem_append.1 h with h | h
    · have := sizeOf_lt_of_mem_ptr h
      dsimp only at this
      simp
      omega
    · have := sizeOf_lt_of_mem_ptr h
      dsimp only at this
      simp
      omega
  | NodeTypeNumberLiteral v => simp [AstNodeData.children] at h
  | NodeTypeStringLiteral v => simp [AstNodeData.children] at h
  | NodeTypeUnreachable => simp [AstNodeData.children] at h
  | NodeTypeSymbol v => simp [AstNodeData.children] at h
  | NodeTypePrefixOpExpr v =>
    cases v
    have := sizeOf_lt_of_mem_ptr h
    dsimp only at this
    simp
    omega
  | NodeTypeFnCallExpr v =>
    cases v
    rcases List.mem_append.1 h with h | h
    · have := sizeOf_lt_of_mem_ptr h
      dsimp only at this
      simp
      omega
    · have := sizeOf_lt_of_mem_ptrs h
      dsimp only at this
      simp
      omega
  | NodeTypeArrayAccessExpr v =>
    cases v
    rcases List.mem_append.1 h with h | h
    · have := sizeOf_lt_of_mem_ptr h
      dsimp only at this
      simp
      omega
    · have := sizeOf_lt_of_mem_ptr h
      dsimp only at this
      simp
      omega
  | NodeTypeUse v =>
    cases v
    have := sizeOf_lt_of_mem_optPtrs h
    dsimp only at this
    simp
    omega
  | NodeTypeVoid => simp [AstNodeData.children] at h
  | NodeTypeBoolLiteral v => simp [AstNodeData.children] at h
  | NodeTypeIfExpr v =>
    cases v
    rcases List.mem_append.1 h with h | h
    · rcases List.mem_append.1 h with h | h
      · have := sizeOf_lt_of_mem_ptr h
        dsimp only at this
        simp
        omega
      · have := sizeOf_lt_of_mem_ptr h
        dsimp only at this
        simp
        omega
    · have := sizeOf_lt_of_mem_ptr h
      dsimp only at this
      simp
      omega
  | NodeTypeLabel v => simp [AstNodeData.children] at h
  | NodeTypeGoto v => simp [AstNodeData.children] at h
  | NodeTypeAsmExpr v =>
    cases v
    have := sizeOf_lt_of_mem_inputExprs h
    dsimp only at this
    simp
    omega

theorem AstNode.sizeOf_lt_of_mem_children {n c : AstNode} (h : c ∈ n.children) :
    sizeOf c < sizeOf n := by
  cases n with
  | mk l col g o d =>
    have := AstNodeData.sizeOf_child_lt (show c ∈ d.children from h)
    simp
    omega

/-! ## Printing -/

/-- Modelled from the spec: the body of `ast_print`, which parser.hpp only
declares (line 291). The spec has it emit the kind name of the node at the
current indentation and then recurse into every child reference at
indentation + 1, in the order of the payload, skipping absent children. The
output is the list of the lines, each an indentation level and a text. -/
def ast_print (node : AstNode) (indent : Int) : List (Int × String) :=
  (indent, node_type_str node.type) ::
    node.children.attach.flatMap (fun c => ast_print c.1 (indent + 1))
termination_by sizeOf node
decreasing_by exact AstNode.sizeOf_lt_of_mem_children c.2

/-! ## Example trees -/

/-- The type `i32`: a Primitive Type node. -/
def exampleType : AstNode :=
  .mk 2 12 none none
    (.NodeTypeType ⟨.AstNodeTypeTypePrimitive, ['i', '3', '2'], none, none, false⟩)

/-- The declaration `const x : i32`: a type and no initializer. -/
def exampleVarDecl : AstNode :=
  .mk 2 5 none none (.NodeTypeVariableDeclaration ⟨['x'], true, some exampleType, none⟩)

/-- A bare `return`. -/
def exampleReturn : AstNode :=
  .mk 3 5 none none (.NodeTypeReturnExpr ⟨none⟩)

/-- The block holding the declaration and the return. -/
def exampleBlock : AstNode :=
  .mk 1 16 none none (.NodeTypeBlock ⟨[some exampleVarDecl, some exampleReturn]⟩)

/-- The parameter `a : i32`. -/
def exampleParam : AstNode :=
  .mk 1 8 none none (.NodeTypeParamDecl ⟨['a'], some exampleType⟩)

/-- The prototype `fn foo(a : i32)`. -/
def exampleFnProto : AstNode :=
  .mk 1 1 none none
    (.NodeTypeFnProto
      ⟨none, .FnProtoVisibModPrivate, ['f', 'o', 'o'], [some exampleParam], none, false⟩)

/-- The definition of `foo`. -/
def exampleFnDef : AstNode :=
  .mk 1 1 none none (.NodeTypeFnDef ⟨some exampleFnProto, some exampleBlock⟩)

/-- The root of the file that defines `foo`. -/
def exampleRoot : AstNode :=
  .mk 1 1 none none (.NodeTypeRoot ⟨[some exampleFnDef]⟩)

/-- A symbol. -/
def exampleSymbol : AstNode :=
  .mk 1 5 none none (.NodeTypeSymbol ['c'])

/-- An inline-assembly node with one input operand bound to the symbol and a
null entry in its input list. -/
def exampleAsm : AstNode :=
  .mk 4 5 none none
    (.NodeTypeAsmExpr
      ⟨true, ['n', 'o', 'p'], [⟨4, 10⟩], [⟨.AsmTokenIdTemplate, 0, 3⟩], [],
        [none, some ⟨['s'], ['r'], some exampleSymbol⟩], []⟩)

/-- An empty block. -/
def exampleEmptyBlock : AstNode :=
  .mk 1 8 none none (.NodeTypeBlock ⟨[]⟩)

/-- The inner `if (c) {} else {}`: its `else_node` is a block. -/
def exampleInnerIf : AstNode :=
  .mk 1 18 none none
    (.NodeTypeIfExpr ⟨some exampleSymbol, some exampleEmptyBlock, some exampleEmptyBlock⟩)

/-- The chain `if (c) {} else if (c) {} else {}`: its `else_node` is the inner
IfExpr. -/
def exampleIfChain : AstNode :=
  .mk 1 1 none none
    (.NodeTypeIfExpr ⟨some exampleSymbol, some exampleEmptyBlock, some exampleInnerIf⟩)

/-! ## The children and the child references -/

theorem mem_ptr_iff {N : Type} {p : Option N} {c : N} : c ∈ ptr p ↔ p = some c := by
  cases p with
  | none => simp [ptr]
  | some n => simp [ptr, eq_comm]

theorem mem_ptrs_iff {N : Type} {l : List (Option N)} {c : N} :
    c ∈ ptrs l ↔ some c ∈ l := by
  induction l with
  | nil => simp [ptrs]
  | cons p l ih => simp [ptrs, mem_ptr_iff, ih, eq_comm]

theorem mem_optPtrs_iff {N : Type} {p : Option (List (Option N))} {c : N} :
    c ∈ optPtrs p ↔ ∃ l, p = some l ∧ some c ∈ l := by
  cases p with
  | none => simp [optPtrs]
  | some l => simp [optPtrs, mem_ptrs_iff]

theorem mem_inputExprs_iff {N : Type} {l : List (Option (AsmInput N))} {c : N} :
    c ∈ inputExprs l ↔ ∃ i, some i ∈ l ∧ i.expr = some c := by
  induction l with
  | nil => simp [inputExprs]
  | cons p l ih =>
    cases p with
    | none => simp [inputExprs, ih]
    | some i =>
      simp only [inputExprs, List.mem_append, mem_ptr_iff, ih, List.mem_cons, Option.some.injEq]
      constructor
      · rintro (h | ⟨j, hj, hc⟩)
        · exact ⟨i, Or.inl rfl, h⟩
        · exact ⟨j, Or.inr hj, hc⟩
      · rintro ⟨j, rfl | hj, hc⟩
        · exact Or.inl hc
        · exact Or.inr ⟨j, hj, hc⟩

/-- The list of children holds exactly the child references of the structs. -/
theorem AstNodeData.mem_children_iff_refers {N : Type} (d : AstNodeData N) (c : N) :
    c ∈ d.children ↔ d.Refers c := by
  cases d <;>
    simp [AstNodeData.children, AstNodeData.Refers, mem_ptr_iff, mem_ptrs_iff,
      mem_optPtrs_iff, mem_inputExprs_iff, or_assoc]

theorem AstNode.mem_children_iff (n c : AstNode) : c ∈ n.children ↔ n.IsChild c :=
  AstNodeData.mem_children_iff_refers n.data c

/-! ## Facts about the tree -/

/-- Induction over the tree: a property that holds of a node whenever it holds of
its children holds of every node. -/
theorem AstNode.induction_children {P : AstNode → Prop}
    (step : ∀ n : AstNode, (∀ c ∈ n.children, P c) → P n) (n : AstNode) : P n := by
  suffices h : ∀ k : Nat, ∀ m : AstNode, sizeOf m = k → P m from h _ n rfl
  intro k
  induction k using Nat.strong_induction_on with
  | _ k ih =>
    intro m hk
    apply step
    intro c hc
    exact ih (sizeOf c) (hk ▸ AstNode.sizeOf_lt_of_mem_children hc) c rfl

theorem flatMap_attach_val {α β : Type} (l : List α) (f : α → List β) :
    l.attach.flatMap (fun c => f c.1) = l.flatMap f := by
  rw [← List.flatMap_map Subtype.val f l.attach, List.attach_map_subtype_val]

theorem ast_print_eq (node : AstNode) (indent : Int) :
    ast_print node indent = (indent, node_type_str node.type) ::
      node.children.flatMap (fun c => ast_print c (indent + 1)) := by
  rw [ast_print]
  exact congrArg _ (flatMap_attach_val node.children (fun c => ast_print c (indent + 1)))

theorem infix_flatMap_of_mem {α β : Type} {l : List α} {a : α} (f : α → List β)
    (h : a ∈ l) : f a <:+: l.flatMap f := by
  obtain ⟨s, t, rfl⟩ := List.append_of_mem h
  refine ⟨s.flatMap f, t.flatMap f, ?_⟩
  simp [List.flatMap_append, List.flatMap_cons]

/-- The printer on the tree of `foo`: one line per node, in preorder. -/
theorem ast_print_exampleRoot :
    ast_print exampleRoot 0 =
      [(0, "Root"), (1, "FnDef"), (2, "FnProto"), (3, "ParamDecl"), (4, "Type"),
        (2, "Block"), (3, "VariableDeclaration"), (4, "Type"), (3, "ReturnExpr")] := by
  simp only [exampleRoot, exampleFnDef, exampleFnProto, exampleParam, exampleBlock,
    exampleReturn, exampleVarDecl, exampleType]
  repeat (
    rw [ast_print_eq]
    simp only [AstNode.children, AstNode.type, AstNode.data, AstNodeData.type,
      AstNodeData.children, ptr, ptrs, optPtrs,
      List.flatMap_cons, List.flatMap_nil, List.append_nil, List.nil_append, List.cons_append,
      List.singleton_append, node_type_str])
  rfl

/-- The printer on the inline-assembly node: the bound expression of its input
operand is printed one level deeper, the null entry is skipped. -/
theorem ast_print_exampleAsm :
    ast_print exampleAsm 3 = [(3, "AsmExpr"), (4, "Symbol")] := by
  simp only [exampleAsm, exampleSymbol]
  repeat (
    rw [ast_print_eq]
    simp only [AstNode.children, AstNode.type, AstNode.data, AstNodeData.type,
      AstNodeData.children, ptr, inputExprs,
      List.flatMap_cons, List.flatMap_nil, List.append_nil, List.nil_append, List.cons_append,
      List.singleton_append, node_type_str])
  rfl

theorem chain_append_blocks {α : Type} (f : α → List (Int × String)) (i : Int)
    (l : List α)
    (hf : ∀ c ∈ l, List.Chain' atMostOneDeeper (f c) ∧ (∃ s, (f c).head? = some (i + 1, s)) ∧
      ∀ x ∈ f c, i ≤ x.1) :
    ∀ pre : List (Int × String), pre ≠ [] → List.Chain' atMostOneDeeper pre →
      (∀ x ∈ pre, i ≤ x.1) →
      List.Chain' atMostOneDeeper (pre ++ l.flatMap f) ∧ ∀ x ∈ pre ++ l.flatMap f, i ≤ x.1 := by
  induction l with
  | nil =>
    intro pre _ hc hb
    rw [List.flatMap_nil, List.append_nil]
    exact ⟨hc, hb⟩
  | cons c l ih =>
    intro pre hne hc hb
    obtain ⟨hcc, ⟨s, hs⟩, hcb⟩ := hf c (List.mem_cons_self c l)
    have hne2 : pre ++ f c ≠ [] := by simp [hne]
    have hchain : List.Chain' atMostOneDeeper (pre ++ f c) := by
      refine List.Chain'.append hc hcc ?_
      intro x hx y hy
      rw [hs] at hy
      have hy2 : y = (i + 1, s) := by simpa using hy.symm
      have hxm : x ∈ pre := List.mem_of_mem_getLast? hx
      have := hb x hxm
      subst hy2
      show i + 1 ≤ x.1 + 1
      omega
    have hbound : ∀ x ∈ pre ++ f c, i ≤ x.1 := by
      intro x hx
      rcases List.mem_append.1 hx with h | h
      · exact hb x h
      · exact hcb x h
    have := ih (fun c2 h2 => hf c2 (List.mem_cons_of_mem c h2)) (pre ++ f c) hne2 hchain hbound
    simpa [List.flatMap_cons, List.append_assoc] using this

/-- The walk of the example chain: two steps along `else_node` reach the final
block. -/
theorem exampleIfChain_walk :
    exampleIfChain.ElseStep exampleInnerIf ∧ exampleInnerIf.ElseStep exampleEmptyBlock ∧
      exampleIfChain.ElseReach exampleEmptyBlock ∧
      exampleEmptyBlock.type = .NodeTypeBlock :=
  ⟨⟨_, rfl, rfl⟩, ⟨_, rfl, rfl⟩,
    Relation.ReflTransGen.head ⟨_, rfl, rfl⟩ (Relation.ReflTransGen.single ⟨_, rfl, rfl⟩), rfl⟩

/-! ## The claims -/

/-- C3: `node_type_str` is total (a function on the 28 kinds), every kind has a
non-empty name, and no two kinds share a name. -/
theorem node_type_str_total_injective :
    Fintype.card NodeType = 28 ∧ (∀ k : NodeType, node_type_str k ≠ "") ∧
      Function.Injective node_type_str := by
  refine ⟨by decide, ?_, ?_⟩
  · intro k
    cases k <;> decide
  · intro a b h
    cases a <;> cases b <;> first | rfl | exact absurd h (by decide)

/-- C7: for every node and starting indentation, `ast_print` emits first the
kind name of the node at the starting indentation; the lines of every child
reference of the node, printed at the starting indentation plus one, follow as
one block; the lines are exactly the kind names of the nodes below the printed
node, each at the starting indentation plus its depth; from one line to the next
the indentation grows by at most one level, and no line is indented less than
the starting indentation. -/
theorem ast_print_indentation (node : AstNode) (indent : Int) :
    (ast_print node indent).head? = some (indent, node_type_str node.type) ∧
      (∀ c : AstNode, node.IsChild c →
        ast_print c (indent + 1) <:+: (ast_print node indent).tail) ∧
      (∀ (m : AstNode) (d : Nat), node.Descends m d →
        (indent + (d : Int), node_type_str m.type) ∈ ast_print node indent) ∧
      (∀ l ∈ ast_print node indent, ∃ (m : AstNode) (d : Nat),
        node.Descends m d ∧ l = (indent + (d : Int), node_type_str m.type)) ∧
      List.Chain' atMostOneDeeper (ast_print node indent) ∧
      (∀ l ∈ ast_print node indent, indent ≤ l.1) := by
  have sound : ∀ (n : AstNode) (i : Int), ∀ l ∈ ast_print n i, ∃ (m : AstNode) (d : Nat),
      n.Descends m d ∧ l = (i + (d : Int), node_type_str m.type) := by
    intro n
    induction n using AstNode.induction_children with
    | step n ih =>
      intro i l hl
      rw [ast_print_eq, List.mem_cons, List.mem_flatMap] at hl
      rcases hl with rfl | ⟨c, hc, hlc⟩
      · exact ⟨n, 0, AstNode.Descends.self n, by simp⟩
      · obtain ⟨m, d, hmd, rfl⟩ := ih c hc (i + 1) l hlc
        refine ⟨m, d + 1, AstNode.Descends.child ((AstNode.mem_children_iff n c).1 hc) hmd, ?_⟩
        simp only [Nat.cast_add, Nat.cast_one, Prod.mk.injEq, and_true]
        omega
  have complete : ∀ (n m : AstNode) (d : Nat), n.Descends m d → ∀ i : Int,
      (i + (d : Int), node_type_str m.type) ∈ ast_print n i := by
    intro n m d h
    induction h with
    | self n =>
      intro i
      rw [ast_print_eq]
      simp
    | @child n c m d hc _ ih =>
      intro i
      rw [ast_print_eq, List.mem_cons, List.mem_flatMap]
      refine Or.inr ⟨c, (AstNode.mem_children_iff n c).2 hc, ?_⟩
      have := ih (i + 1)
      have e : i + 1 + (d : Int) = i + ((d + 1 : Nat) : Int) := by
        simp only [Nat.cast_add, Nat.cast_one]
        omega
      rwa [e] at this
  have bound : ∀ (n : AstNode) (i : Int), ∀ l ∈ ast_print n i, i ≤ l.1 := by
    intro n i l hl
    obtain ⟨m, d, _, rfl⟩ := sound n i l hl
    exact le_add_of_nonneg_right (Int.ofNat_nonneg d)
  have chain : ∀ (n : AstNode) (i : Int), List.Chain' atMostOneDeeper (ast_print n i) := by
    intro n
    induction n using AstNode.induction_children with
    | step n ih =>
      intro i
      rw [ast_print_eq]
      have := chain_append_blocks (fun c => ast_print c (i + 1)) i n.children
        (fun c hc => ⟨ih c hc (i + 1), ⟨node_type_str c.type, by
          show (ast_print c (i + 1)).head? = _
          rw [ast_print_eq]
          rfl⟩,
          fun x hx => by have := bound c (i + 1) x hx; omega⟩)
        [(i, node_type_str n.type)] (by simp) (List.chain'_singleton _)
        (by simp)
      exact this.1
  refine ⟨by rw [ast_print_eq]; rfl, ?_, fun m d h => complete node m d h indent,
    sound node indent, chain node indent, bound node indent⟩
  intro c hc
  rw [ast_print_eq node indent, List.tail_cons]
  exact infix_flatMap_of_mem (fun c => ast_print c (indent + 1))
    ((AstNode.mem_children_iff node c).2 hc)

/-- C8, as stated, fails: `BinOpType` has 20 values, not 19; `BinOpTypeInvalid`
is one of them. -/
theorem bin_op_type_card_not_19 :
    Fintype.card BinOpType = 20 ∧ Fintype.card BinOpType ≠ 19 := by
  decide

/-- C8, amended: `BinOpType` has exactly 20 values, the sentinel
`BinOpTypeInvalid` and 19 operators. -/
theorem bin_op_type_card :
    Fintype.card BinOpType = 20 ∧
      Fintype.card {op : BinOpType // op ≠ .BinOpTypeInvalid} = 19 := by
  decide

/-- C10, as stated, fails: the kinds `NodeTypeUnreachable` and `NodeTypeVoid`
have no member in the union `data`, which has 26 members for 28 kinds. -/
theorem payload_missing_for_unreachable_and_void :
    payloadMember .NodeTypeUnreachable = none ∧ payloadMember .NodeTypeVoid = none ∧
      Fintype.card NodeType = 28 ∧ Fintype.card AstNodeDataMember = 26 := by
  decide

/-- C10, amended: every member of the union `data` belongs to exactly one node
kind, and every node kind has its one member of the union, except
`NodeTypeUnreachable` and `NodeTypeVoid`, which have none: the member through
which a payload is read is fixed by the kind. -/
theorem payload_member_of_kind :
    (∀ m : AstNodeDataMember, ∃! k : NodeType, payloadMember k = some m) ∧
      (∀ k : NodeType, payloadMember k = none ↔
        (k = .NodeTypeUnreachable ∨ k = .NodeTypeVoid)) ∧
      Fintype.card {k : NodeType // payloadMember k ≠ none} =
        Fintype.card AstNodeDataMember := by
  refine ⟨?_, ?_, by decide⟩
  · intro m
    refine ⟨memberKind m, by cases m <;> rfl, ?_⟩
    intro k hk
    cases k <;> first
      | (obtain rfl := Option.some.inj hk; rfl)
      | exact absurd hk (by simp [payloadMember])
  · intro k
    cases k <;> decide

end ZigParser
